import Mathlib

/-!
Verification of the s3rm bulk-delete utility (Go) against its design
specification.  The Go source is shallowly embedded: pure logic becomes
Lean functions, channel effects become explicit traces or lists, the
worker select loop becomes a labelled step relation, and Go loops become
fuel-indexed structural recursions whose fuel equals the exact number of
iterations the Go loop performs.
-/

set_option maxRecDepth 4000

/-- An s3 object identifier (`s3.ObjectIdentifier`): just the key. -/
structure ObjectIdentifier where
  Key : String
deriving DecidableEq, Repr

/-- A `DeleteTask` from the source; the embedded s3 client is passed
separately to `DeleteTask.Execute` as a response function, so it is not a
field here. -/
structure DeleteTask where
  dryrun : Bool
  Bucket : String
  Objects : List ObjectIdentifier
deriving DecidableEq, Repr

/-- The possible outcomes of one remote `DeleteObjects` call, as the Go code
distinguishes them: success, an `awserr.RequestFailure` carrying an error
code, or any other (non-`RequestFailure`) error. -/
inductive S3Response where
  | ok : S3Response
  | requestFailure (code : String) : S3Response
  | otherError (msg : String) : S3Response
deriving DecidableEq, Repr

/-- A Go buffered channel: capacity, current buffer contents, closed flag. -/
structure GoChan (α : Type) where
  cap : Nat
  buf : List α
  closed : Bool
deriving DecidableEq, Repr

/-- Go `make(chan α, c)`: empty buffer, open. -/
def mkChan (α : Type) (c : Nat) : GoChan α :=
  { cap := c, buf := [], closed := false }

/-- The result of a Go channel send: sending on a closed channel panics
(checked first, regardless of buffer space); otherwise the value is
buffered if space remains, else the sender blocks. -/
inductive SendResult (α : Type) where
  | panicked : SendResult α
  | blocked : SendResult α
  | sent (c : GoChan α) : SendResult α
deriving DecidableEq, Repr

/-- Go send semantics `c <- x`. -/
def GoChan.send {α : Type} (c : GoChan α) (x : α) : SendResult α :=
  if c.closed then SendResult.panicked
  else if c.buf.length < c.cap then SendResult.sent { c with buf := c.buf ++ [x] }
  else SendResult.blocked

/-- The `Pool` struct: `Size` (a Go `int`), the `tasks` channel
(`make(chan Task, 128)`), the `errors` channel (`make(chan error, 10)`),
and the unbuffered `kill` channel.  `DeleteTask` is the only `Task`
implementation in the program and errors are modelled by `S3Response`. -/
structure Pool where
  Size : Int
  tasks : GoChan DeleteTask
  errors : GoChan S3Response
  kill : GoChan Unit
deriving DecidableEq, Repr

/-- The grow loop of `Pool.Resize` (`for p.Size < size { p.Size++; go p.worker() }`),
fuelled with exactly the number of iterations the Go loop performs; returns
the final `Size` and the number of workers spawned. -/
def growLoopAux (cur target : Int) : Nat → Int × Nat
  | 0 => (cur, 0)
  | fuel + 1 =>
    if cur < target then
      let r := growLoopAux (cur + 1) target fuel
      (r.1, r.2 + 1)
    else (cur, 0)

/-- Grow loop entry point: the Go loop runs `(target - cur).toNat` times. -/
def growLoop (cur target : Int) : Int × Nat :=
  growLoopAux cur target (target - cur).toNat

/-- The shrink loop of `Pool.Resize` (`for p.Size > size { p.Size--; p.kill <- struct{}{} }`);
returns the final `Size` and the number of kill signals sent. -/
def shrinkLoopAux (cur target : Int) : Nat → Int × Nat
  | 0 => (cur, 0)
  | fuel + 1 =>
    if target < cur then
      let r := shrinkLoopAux (cur - 1) target fuel
      (r.1, r.2 + 1)
    else (cur, 0)

/-- Shrink loop entry point: the Go loop runs `(cur - target).toNat` times. -/
def shrinkLoop (cur target : Int) : Int × Nat :=
  shrinkLoopAux cur target (cur - target).toNat

/-- `Pool.Resize` under the mutex: run the grow loop, then the shrink loop.
Returns the updated pool, the number of workers spawned, and the number of
kill signals sent. -/
def Pool.Resize (p : Pool) (size : Int) : Pool × Nat × Nat :=
  let g := growLoop p.Size size
  let s := shrinkLoop g.1 size
  ({ p with Size := s.1 }, g.2, s.2)

/-- `NewPool(size)`: allocates `errors` with capacity 10, the unbuffered
`kill` channel, `tasks` with capacity 128, then calls `Resize(size)`.
Returns the pool together with the spawn and kill counts of that resize. -/
def NewPool (size : Int) : Pool × Nat × Nat :=
  let p : Pool :=
    { Size := 0
      errors := mkChan S3Response 10
      kill := mkChan Unit 0
      tasks := mkChan DeleteTask 128 }
  Pool.Resize p size

/-- `Pool.Exec(task)`: a plain send on the task channel. -/
def Pool.Exec (p : Pool) (t : DeleteTask) : SendResult DeleteTask :=
  p.tasks.send t

/-- `Pool.Close()`: closes the task channel. -/
def Pool.Close (p : Pool) : Pool :=
  { p with tasks := { p.tasks with closed := true } }

/-- One iteration of the throttle feedback goroutine in `main`:
`<-slowDown; if pool.Size > 1 { pool.Resize(pool.Size - 1) }`. -/
def throttleStep (p : Pool) : Pool :=
  if p.Size > 1 then (Pool.Resize p (p.Size - 1)).1 else p

/-- The feedback goroutine processing `n` successive throttle signals. -/
def throttleLoop (p : Pool) : Nat → Pool
  | 0 => p
  | n + 1 => throttleLoop (throttleStep p) n

/-! Closed forms for the resize loops. -/

theorem growLoopAux_spec (fuel : Nat) : ∀ cur target : Int,
    (target - cur).toNat ≤ fuel →
    growLoopAux cur target fuel = (max cur target, (target - cur).toNat) := by
  induction fuel with
  | zero =>
    intro cur target h
    have h0 : (target - cur).toNat = 0 := Nat.le_zero.mp h
    have hle : target ≤ cur := by omega
    simp [growLoopAux, max_eq_left hle, h0, not_lt.mpr hle]
  | succ n ih =>
    intro cur target h
    by_cases hlt : cur < target
    · have hrec := ih (cur + 1) target (by omega)
      simp only [growLoopAux, if_pos hlt, hrec, Prod.mk.injEq]
      omega
    · have hle : target ≤ cur := not_lt.mp hlt
      simp [growLoopAux, if_neg hlt, max_eq_left hle]
      omega

theorem growLoop_eq (cur target : Int) :
    growLoop cur target = (max cur target, (target - cur).toNat) :=
  growLoopAux_spec _ cur target le_rfl

theorem shrinkLoopAux_spec (fuel : Nat) : ∀ cur target : Int,
    (cur - target).toNat ≤ fuel →
    shrinkLoopAux cur target fuel = (min cur target, (cur - target).toNat) := by
  induction fuel with
  | zero =>
    intro cur target h
    have hle : cur ≤ target := by omega
    simp [shrinkLoopAux, min_eq_left hle, not_lt.mpr hle]
    omega
  | succ n ih =>
    intro cur target h
    by_cases hlt : target < cur
    · have hrec := ih (cur - 1) target (by omega)
      simp only [shrinkLoopAux, if_pos hlt, hrec, Prod.mk.injEq]
      omega
    · have hle : cur ≤ target := not_lt.mp hlt
      simp [shrinkLoopAux, if_neg hlt, min_eq_left hle]
      omega

theorem shrinkLoop_eq (cur target : Int) :
    shrinkLoop cur target = (min cur target, (cur - target).toNat) :=
  shrinkLoopAux_spec _ cur target le_rfl

theorem pool_resize_eq (p : Pool) (k : Int) :
    Pool.Resize p k = ({ p with Size := k }, (k - p.Size).toNat, (p.Size - k).toNat) := by
  simp only [Pool.Resize, growLoop_eq, shrinkLoop_eq]
  have h1 : min (max p.Size k) k = k := by omega
  have h2 : (max p.Size k - k).toNat = (p.Size - k).toNat := by omega
  rw [h1, h2]

/-! The delete task's retry/backoff execution. -/

/-- How one `DeleteObjects` attempt is classified inside `operation` in
`DeleteTask.Execute`: success; a retryable error (it returns the raw error
when `reqerr.Code() == "SlowDown"`); or a permanent error (wrapped in
`backoff.PermanentError` for every other failure). -/
inductive OpOutcome where
  | success : OpOutcome
  | retryable (e : S3Response) : OpOutcome
  | permanent (e : S3Response) : OpOutcome
deriving DecidableEq, Repr

/-- The classification performed by the `operation` closure of
`DeleteTask.Execute`, applied to the remote response of attempt `k`. -/
def deleteOperation (client : Nat → S3Response) (k : Nat) : OpOutcome :=
  match client k with
  | S3Response.ok => OpOutcome.success
  | S3Response.requestFailure code =>
    if code = "SlowDown" then OpOutcome.retryable (S3Response.requestFailure code)
    else OpOutcome.permanent (S3Response.requestFailure code)
  | S3Response.otherError msg => OpOutcome.permanent (S3Response.otherError msg)

/-- The `backoffNotify` callback: each invocation performs `slowDown <- 1`,
i.e. adds exactly one signal to the throttle channel trace (counted here). -/
def backoffNotify (slowDownSignals : Nat) : Nat :=
  slowDownSignals + 1

/-- Whether the retry loop is still running or has returned (with `none` for
a nil error, `some e` for the unwrapped permanent error). -/
inductive RetryOutcome where
  | running : RetryOutcome
  | returned (e : Option S3Response) : RetryOutcome
deriving DecidableEq, Repr

/-- Observable trace of a `DeleteTask.Execute` run: attempts made, signals
sent on the `slowDown` channel, batches reported on the `deletedObjects`
channel, and whether the retry loop has returned. -/
structure ExecTrace where
  attempts : Nat
  slowDownSignals : Nat
  deletedSends : Nat
  outcome : RetryOutcome
deriving DecidableEq, Repr

/-- Modelled from the spec: the retry engine `backoff.RetryNotify` together
with `backoff.NewExponentialBackOff` is library code not present under
`src/`.  Per the spec, the loop retries the identical operation with no
hardcoded maximum attempt count, calling the notify callback exactly once
per retryable failure before backing off, returning nil on success and the
underlying error of a permanent failure.  `fuel` counts loop iterations
observed; a returned trace is absorbing.  On a successful attempt the
operation has sent the batch on `deletedObjects` (`deletedSends + 1`). -/
def retrySteps (op : Nat → OpOutcome) : Nat → ExecTrace
  | 0 => { attempts := 0, slowDownSignals := 0, deletedSends := 0, outcome := RetryOutcome.running }
  | n + 1 =>
    let t := retrySteps op n
    match t.outcome with
    | RetryOutcome.returned _ => t
    | RetryOutcome.running =>
      match op t.attempts with
      | OpOutcome.success =>
        { attempts := t.attempts + 1, slowDownSignals := t.slowDownSignals,
          deletedSends := t.deletedSends + 1, outcome := RetryOutcome.returned none }
      | OpOutcome.permanent e =>
        { attempts := t.attempts + 1, slowDownSignals := t.slowDownSignals,
          deletedSends := t.deletedSends, outcome := RetryOutcome.returned (some e) }
      | OpOutcome.retryable _ =>
        { attempts := t.attempts + 1, slowDownSignals := backoffNotify t.slowDownSignals,
          deletedSends := t.deletedSends, outcome := RetryOutcome.running }

/-- Modelled from the spec: the exponential backoff policy's delay cap
("bounded only by the exponential delay cap of the backoff policy").
Values are the library defaults in milliseconds. -/
def maxInterval : Nat := 60000

/-- Modelled from the spec: the initial backoff delay (library default, ms). -/
def initialInterval : Nat := 500

/-- Modelled from the spec: the exponential backoff delay sequence, growing
by the multiplier 1.5 and capped at `maxInterval`. -/
def backoffDelay : Nat → Nat
  | 0 => initialInterval
  | n + 1 => min maxInterval (backoffDelay n * 3 / 2)

/-- `DeleteTask.Execute`: the dryrun branch reports the batch on
`deletedObjects` and returns nil without any remote call; otherwise the
retry loop runs on the `operation` closure. -/
def DeleteTask.Execute (t : DeleteTask) (client : Nat → S3Response) (fuel : Nat) : ExecTrace :=
  if t.dryrun then
    { attempts := 0, slowDownSignals := 0, deletedSends := 1, outcome := RetryOutcome.returned none }
  else retrySteps (deleteOperation client) fuel

/-! The worker loop. -/

/-- The environment a worker's `select` observes: the task queue contents,
whether the task channel is closed, and whether a kill signal sender is
blocked on the unbuffered `kill` channel. -/
structure WorkerEnv where
  queued : List DeleteTask
  tasksClosed : Bool
  killPending : Bool
deriving DecidableEq, Repr

/-- What one iteration of the worker's `select` does. -/
inductive WorkerAction where
  | execute (t : DeleteTask) : WorkerAction
  | exitChanClosed : WorkerAction
  | exitKill : WorkerAction
deriving DecidableEq, Repr

/-- One round of the worker's `select`: Go chooses among the *ready* cases
(uniformly at random when several are ready — no case has priority).  The
task case is ready when a task is queued (dequeue and execute it) or when
the channel is closed and drained (`ok == false`, return); the kill case is
ready when a kill send is pending (consume it and return). -/
inductive WorkerStep : WorkerEnv → WorkerAction → WorkerEnv → Prop
  | recvTask : ∀ (env : WorkerEnv) (t : DeleteTask) (rest : List DeleteTask),
      env.queued = t :: rest →
      WorkerStep env (WorkerAction.execute t) { env with queued := rest }
  | recvClosed : ∀ env : WorkerEnv,
      env.queued = [] → env.tasksClosed = true →
      WorkerStep env WorkerAction.exitChanClosed env
  | recvKill : ∀ env : WorkerEnv,
      env.killPending = true →
      WorkerStep env WorkerAction.exitKill { env with killPending := false }

/-- How a worker run terminates. -/
inductive ExitKind where
  | chanClosed : ExitKind
  | killed : ExitKind
deriving DecidableEq, Repr

/-- A complete worker run: the list of tasks it executes before exiting, and
the exit kind.  Taking the kill branch returns at once, so a `killed` run
executes nothing after consuming the kill signal. -/
inductive WorkerRun : WorkerEnv → List DeleteTask → ExitKind → Prop
  | exitClosed : ∀ env : WorkerEnv,
      env.queued = [] → env.tasksClosed = true →
      WorkerRun env [] ExitKind.chanClosed
  | exitKill : ∀ env : WorkerEnv,
      env.killPending = true →
      WorkerRun env [] ExitKind.killed
  | step : ∀ (env : WorkerEnv) (t : DeleteTask) (rest ts : List DeleteTask) (ek : ExitKind),
      env.queued = t :: rest →
      WorkerRun { env with queued := rest } ts ek →
      WorkerRun env (t :: ts) ek

/-- The error-forwarding in the worker body: after `task.Execute()` the
worker does `if err != nil { p.errors <- err }`.  The errors channel is
modelled by the list of errors that have arrived on it. -/
def Pool.workerRunTask (t : DeleteTask) (client : Nat → S3Response) (fuel : Nat)
    (errs : List S3Response) : ExecTrace × List S3Response :=
  let tr := t.Execute client fuel
  match tr.outcome with
  | RetryOutcome.returned (some e) => (tr, errs ++ [e])
  | _ => (tr, errs)

/-! The scanners. -/

/-- The underlying `bufio.Scanner` stream backing a `FileScanner`: the lines
still readable, and how the stream terminates afterwards (`none` for clean
EOF, `some e` for a file read error).  `bufio.Scanner.Scan` returns false in
either terminal case. -/
structure LineReader where
  lines : List String
  terminal : Option String
deriving DecidableEq, Repr

/-- One `s.scanner.Scan()` / `s.scanner.Text()` step of the underlying
buffered reader: the next line if any, and false (`none`) at EOF or on a
read error alike. -/
def bufioScan (r : LineReader) : Option (String × LineReader) :=
  match r.lines with
  | [] => none
  | l :: rest => some (l, { r with lines := rest })

/-- The `FileScanner` struct: the current batch buffer and the wrapped
buffered reader. -/
structure FileScanner where
  buf : List ObjectIdentifier
  reader : LineReader
deriving DecidableEq, Repr

/-- The loop body of `FileScanner.Scan`: `for i := 0; i < count; i++` reads
a line into the buffer when the underlying scan succeeds, and otherwise
returns false if and only if nothing has been accumulated; after the loop
it returns true. -/
def fileScanLoop (r : LineReader) (buf : List ObjectIdentifier) :
    Nat → Bool × List ObjectIdentifier × LineReader
  | 0 => (true, buf, r)
  | n + 1 =>
    match bufioScan r with
    | some (l, r2) => fileScanLoop r2 (buf ++ [{ Key := l }]) n
    | none =>
      if buf = [] then (false, buf, r)
      else fileScanLoop r buf n

/-- `FileScanner.Scan(count)`: resets `s.buf` to nil, then runs the loop. -/
def FileScanner.Scan (s : FileScanner) (count : Nat) : Bool × FileScanner :=
  let r := fileScanLoop s.reader [] count
  (r.1, { buf := r.2.1, reader := r.2.2 })

/-- `FileScanner.Err()` in the source is literally `return nil`. -/
def FileScanner.Err (_ : FileScanner) : Option String :=
  none

/-- `FileScanner.Objects()`. -/
def FileScanner.Objects (s : FileScanner) : List ObjectIdentifier :=
  s.buf

/-- An object returned by the remote listing (`resp.Contents` entry). -/
structure S3Object where
  Key : String
deriving DecidableEq, Repr

/-- The `s3.ListObjectsInput` parameters built by `BucketScanner.Scan`
(`Pfx` stands for the source's `Prefix` field). -/
structure ListObjectsInput where
  Bucket : String
  Marker : Option String
  MaxKeys : Int
  Pfx : String
deriving DecidableEq, Repr

/-- The `BucketScanner` struct (`Pfx` stands for the source's `Prefix`
field); the s3 client is passed to `Scan` as a function. -/
structure BucketScanner where
  Bucket : String
  Pfx : String
  err : Option S3Response
  buf : List ObjectIdentifier
deriving DecidableEq, Repr

/-- `NewBucketScanner`: fresh scanner, no error, empty buffer. -/
def NewBucketScanner (bucket pfx : String) : BucketScanner :=
  { Bucket := bucket, Pfx := pfx, err := none, buf := [] }

/-- The `s3.ListObjectsInput` a `Scan` call builds from the scanner state:
the `Marker` is the last key of the previous buffer (`s.buf[len(s.buf)-1].Key`
when the buffer is non-empty, absent otherwise), `MaxKeys` is the requested
count, bucket and prefix come from the scanner. -/
def listParamsOf (s : BucketScanner) (count : Nat) : ListObjectsInput :=
  { Bucket := s.Bucket, Marker := Option.map (fun o => o.Key) s.buf.getLast?,
    MaxKeys := (count : Int), Pfx := s.Pfx }

/-- `BucketScanner.Scan(count)`: builds the listing request (see
`listParamsOf`), clears the buffer, issues the listing call, stores the
error and returns false on failure, returns false on an empty page, and
otherwise fills the buffer from the page.  The embedding also returns the
`ListObjectsInput` actually passed to the client, so theorems can speak
about the marker. -/
def BucketScanner.Scan (client : ListObjectsInput → Except S3Response (List S3Object))
    (s : BucketScanner) (count : Nat) : Bool × BucketScanner × ListObjectsInput :=
  let params : ListObjectsInput := listParamsOf s count
  match client params with
  | Except.error e => (false, { s with buf := [], err := some e }, params)
  | Except.ok contents =>
    if contents.length < 1 then (false, { s with buf := [] }, params)
    else (true, { s with buf := contents.map (fun o => { Key := o.Key }) }, params)

/-- `BucketScanner.Err()`. -/
def BucketScanner.Err (s : BucketScanner) : Option S3Response :=
  s.err

/-- `BucketScanner.Objects()`. -/
def BucketScanner.Objects (s : BucketScanner) : List ObjectIdentifier :=
  s.buf

/-! Helper lemmas about the retry loop. -/

theorem backoffDelay_le_cap : ∀ m, backoffDelay m ≤ maxInterval := by
  intro m
  cases m with
  | zero => decide
  | succ n => exact Nat.min_le_left _ _

theorem retrySteps_all_retryable (op : Nat → OpOutcome) (e : Nat → S3Response)
    (h : ∀ k, op k = OpOutcome.retryable (e k)) :
    ∀ n, retrySteps op n =
      { attempts := n, slowDownSignals := n, deletedSends := 0, outcome := RetryOutcome.running } := by
  intro n
  induction n with
  | zero => rfl
  | succ k ih => simp [retrySteps, ih, h k, backoffNotify]

theorem retrySteps_returned_succ (op : Nat → OpOutcome) (n : Nat) (e : Option S3Response)
    (h : (retrySteps op n).outcome = RetryOutcome.returned e) :
    retrySteps op (n + 1) = retrySteps op n := by
  simp only [retrySteps, h]

theorem retrySteps_frozen (op : Nat → OpOutcome) (n m : Nat) (e : Option S3Response)
    (hnm : n ≤ m) (h : (retrySteps op n).outcome = RetryOutcome.returned e) :
    retrySteps op m = retrySteps op n := by
  induction m with
  | zero =>
    have h0 : n = 0 := Nat.le_zero.mp hnm
    rw [h0]
  | succ k ih =>
    rcases Nat.lt_or_ge k n with hk | hk
    · have : n = k + 1 := by omega
      rw [this]
    · have hke := ih hk
      have : (retrySteps op k).outcome = RetryOutcome.returned e := by rw [hke, h]
      rw [retrySteps_returned_succ op k e this, hke]

theorem retrySteps_permanent_once (op : Nat → OpOutcome) (e : S3Response)
    (h0 : op 0 = OpOutcome.permanent e) (n : Nat) (hn : 1 ≤ n) :
    retrySteps op n =
      { attempts := 1, slowDownSignals := 0, deletedSends := 0,
        outcome := RetryOutcome.returned (some e) } := by
  have h1 : retrySteps op 1 =
      { attempts := 1, slowDownSignals := 0, deletedSends := 0,
        outcome := RetryOutcome.returned (some e) } := by
    simp [retrySteps, h0]
  calc retrySteps op n = retrySteps op 1 :=
        retrySteps_frozen op 1 n (some e) hn (by rw [h1])
    _ = _ := h1

/-- Claim C1: for a `DeleteTask` whose remote delete call returns a
throttling ("SlowDown") response on every attempt, `Execute` retries the
identical batch indefinitely — after any number `n` of loop iterations it
is still running, has made exactly `n` attempts with no attempt ceiling,
has reported nothing as deleted, and has sent exactly one signal per retry
on the `slowDown` channel; the backoff delay is bounded only by the
policy's cap. -/
theorem deleteTask_throttled_retries_forever (t : DeleteTask) (client : Nat → S3Response)
    (hd : t.dryrun = false)
    (h : ∀ k, client k = S3Response.requestFailure "SlowDown") :
    (∀ n, t.Execute client n =
      { attempts := n, slowDownSignals := n, deletedSends := 0,
        outcome := RetryOutcome.running }) ∧
    (∀ m, backoffDelay m ≤ maxInterval) := by
  constructor
  · intro n
    have hop : ∀ k, deleteOperation client k =
        OpOutcome.retryable (S3Response.requestFailure "SlowDown") := by
      intro k
      simp [deleteOperation, h k]
    rw [DeleteTask.Execute, if_neg (by simp [hd])]
    exact retrySteps_all_retryable _ _ hop n
  · exact backoffDelay_le_cap

theorem deleteTask_throttled_retries_forever_witness :
    DeleteTask.Execute { dryrun := false, Bucket := "b", Objects := [] }
      (fun _ => S3Response.requestFailure "SlowDown") 3 =
      { attempts := 3, slowDownSignals := 3, deletedSends := 0,
        outcome := RetryOutcome.running } ∧
    backoffDelay 2 ≤ maxInterval :=
  ⟨(deleteTask_throttled_retries_forever { dryrun := false, Bucket := "b", Objects := [] }
      (fun _ => S3Response.requestFailure "SlowDown") rfl (fun _ => rfl)).1 3,
   (deleteTask_throttled_retries_forever { dryrun := false, Bucket := "b", Objects := [] }
      (fun _ => S3Response.requestFailure "SlowDown") rfl (fun _ => rfl)).2 2⟩

/-- Claim C3: a `DeleteTask` whose remote delete call returns a
non-throttling error is attempted exactly once, nothing is sent on the
`deletedObjects` channel, and the executing worker forwards that error
exactly once onto the pool's error queue. -/
theorem deleteTask_permanent_error_single_attempt (t : DeleteTask) (client : Nat → S3Response)
    (fuel : Nat) (errs : List S3Response)
    (hd : t.dryrun = false)
    (hne : client 0 ≠ S3Response.ok)
    (hnt : ∀ c, client 0 = S3Response.requestFailure c → c ≠ "SlowDown")
    (hf : 1 ≤ fuel) :
    Pool.workerRunTask t client fuel errs =
      ({ attempts := 1, slowDownSignals := 0, deletedSends := 0,
         outcome := RetryOutcome.returned (some (client 0)) }, errs ++ [client 0]) := by
  have hop : deleteOperation client 0 = OpOutcome.permanent (client 0) := by
    cases hc : client 0 with
    | ok => exact absurd hc hne
    | requestFailure c => simp [deleteOperation, hc, hnt c hc]
    | otherError m => simp [deleteOperation, hc]
  have hex : t.Execute client fuel =
      { attempts := 1, slowDownSignals := 0, deletedSends := 0,
        outcome := RetryOutcome.returned (some (client 0)) } := by
    rw [DeleteTask.Execute, if_neg (by simp [hd])]
    exact retrySteps_permanent_once _ _ hop fuel hf
  simp [Pool.workerRunTask, hex]

theorem deleteTask_permanent_error_single_attempt_witness :
    Pool.workerRunTask { dryrun := false, Bucket := "b", Objects := [] }
      (fun _ => S3Response.otherError "boom") 3 [] =
      ({ attempts := 1, slowDownSignals := 0, deletedSends := 0,
         outcome := RetryOutcome.returned (some (S3Response.otherError "boom")) },
       [S3Response.otherError "boom"]) :=
  deleteTask_permanent_error_single_attempt _ _ 3 [] rfl (by decide)
    (fun c h => nomatch h) (by decide)

/-- Claim C2 counterexample: the claim states the error queue is allocated
with capacity 128, but `NewPool` allocates `make(chan error, 10)` — at
initial size 5 the error queue capacity is 10, not 128. -/
theorem newPool_error_capacity_counterexample : ¬ ((NewPool 5).1.errors.cap = 128) := by
  decide

/-- Claim C2 (amended): pool creation with initial size `k ≥ 0` allocates
the task queue with capacity 128 and the error queue with capacity 10, and
then grows the pool to `k` workers (spawning `k`, killing none). -/
theorem newPool_capacities (k : Int) (hk : 0 ≤ k) :
    (NewPool k).1.tasks.cap = 128 ∧ (NewPool k).1.errors.cap = 10 ∧
    (NewPool k).1.Size = k ∧ (NewPool k).2.1 = k.toNat ∧ (NewPool k).2.2 = 0 := by
  simp only [NewPool, pool_resize_eq, mkChan]
  refine ⟨trivial, trivial, trivial, by omega, by omega⟩

theorem newPool_capacities_witness :
    (NewPool 5).1.tasks.cap = 128 ∧ (NewPool 5).1.errors.cap = 10 ∧
    (NewPool 5).1.Size = 5 ∧ (NewPool 5).2.1 = (5 : Int).toNat ∧ (NewPool 5).2.2 = 0 :=
  newPool_capacities 5 (by decide)

/-- Claim C8: `Resize(k)` on a pool of current size `c` spawns exactly
`(k - c).toNat` workers and sends exactly `(c - k).toNat` kill signals
(so `k - c` spawns when growing, `c - k` kills when shrinking), and a
second `Resize` to the same stable target spawns no worker and sends no
kill signal — resize is idempotent at a stable target. -/
theorem pool_resize_counts_idempotent (p : Pool) (k : Int) :
    Pool.Resize p k = ({ p with Size := k }, (k - p.Size).toNat, (p.Size - k).toNat) ∧
    Pool.Resize (Pool.Resize p k).1 k = ((Pool.Resize p k).1, 0, 0) := by
  refine ⟨pool_resize_eq p k, ?_⟩
  rw [pool_resize_eq p k]
  rw [pool_resize_eq]
  simp

/-- Claim C9: each throttle signal processed by the feedback goroutine
shrinks the pool by one worker with a floor of one — after `s` signals the
size is exactly `max 1 (initialSize - s)`. -/
theorem throttleLoop_floor (p : Pool) (s : Nat) (h1 : 1 ≤ p.Size) :
    (throttleLoop p s).Size = max 1 (p.Size - (s : Int)) := by
  induction s generalizing p with
  | zero =>
    simp only [throttleLoop]
    omega
  | succ n ih =>
    have hstep : (throttleStep p).Size = if p.Size > 1 then p.Size - 1 else p.Size := by
      by_cases hgt : p.Size > 1
      · simp [throttleStep, hgt, pool_resize_eq]
      · simp [throttleStep, hgt]
    rw [throttleLoop, ih (throttleStep p) (by rw [hstep]; split <;> omega), hstep]
    split <;> omega

/-- A concrete pool of size 3 (queues as `NewPool` allocates them). -/
def poolOfSize3 : Pool :=
  { Size := 3, tasks := mkChan DeleteTask 128,
    errors := mkChan S3Response 10, kill := mkChan Unit 0 }

theorem throttleLoop_floor_witness :
    (throttleLoop poolOfSize3 5).Size = max 1 (poolOfSize3.Size - ((5 : Nat) : Int)) :=
  throttleLoop_floor poolOfSize3 5 (by decide)

/-- Claim C10: after `Close()` has been called on a pool, any `Exec(task)`
is a send on the closed task channel, which panics. -/
theorem pool_exec_after_close_panics (p : Pool) (t : DeleteTask) :
    (p.Close).Exec t = SendResult.panicked := by
  simp [Pool.Exec, Pool.Close, GoChan.send]

/-- A concrete task used in the worker select scenarios. -/
def task0 : DeleteTask := { dryrun := false, Bucket := "bucket", Objects := [] }

/-- Claim C4 counterexample: the kill event does NOT take priority in the
worker's `select` — from an environment with both a queued task and a
pending kill signal, Go may pick the task case, so the step executing the
task is permitted while the kill is pending. -/
theorem worker_kill_priority_counterexample :
    ¬ (∀ (env env2 : WorkerEnv) (act : WorkerAction),
        WorkerStep env act env2 → env.killPending = true → act = WorkerAction.exitKill) := by
  intro hcl
  have hstep : WorkerStep { queued := [task0], tasksClosed := false, killPending := true }
      (WorkerAction.execute task0)
      { queued := ([] : List DeleteTask), tasksClosed := false, killPending := true } :=
    WorkerStep.recvTask _ task0 [] rfl
  have hc := hcl _ _ _ hstep rfl
  nomatch hc

/-- Claim C4 (amended): once the worker's `select` takes the kill branch it
exits immediately, executing no further tasks even with tasks still queued
(so a run consuming the kill executes nothing more); but when both a
queued task and a kill signal are available, the `select` chooses between
the two nondeterministically — both steps are permitted, kill has no
priority. -/
theorem worker_kill_exit_immediate_no_priority :
    (∀ env : WorkerEnv, env.killPending = true → WorkerRun env [] ExitKind.killed) ∧
    (∀ (env : WorkerEnv) (t : DeleteTask) (rest : List DeleteTask),
        env.queued = t :: rest → env.killPending = true →
        WorkerStep env WorkerAction.exitKill { env with killPending := false } ∧
        WorkerStep env (WorkerAction.execute t) { env with queued := rest }) := by
  constructor
  · intro env h
    exact WorkerRun.exitKill env h
  · intro env t rest hq hk
    exact ⟨WorkerStep.recvKill env hk, WorkerStep.recvTask env t rest hq⟩

theorem worker_kill_exit_immediate_witness :
    WorkerRun { queued := [task0], tasksClosed := false, killPending := true } [] ExitKind.killed ∧
    WorkerStep { queued := [task0], tasksClosed := false, killPending := true }
      WorkerAction.exitKill
      { queued := [task0], tasksClosed := false, killPending := false } :=
  ⟨worker_kill_exit_immediate_no_priority.1 _ rfl,
   (worker_kill_exit_immediate_no_priority.2 _ task0 [] rfl rfl).1⟩


/-! Helper lemmas about the file scan loop. -/

theorem fileScanLoop_go (b : Nat) : ∀ (ls : List String) (tm : Option String)
    (buf : List ObjectIdentifier), buf ≠ [] ∨ ls ≠ [] →
    fileScanLoop { lines := ls, terminal := tm } buf b =
      (true, buf ++ (ls.take b).map (fun l => { Key := l }),
       { lines := ls.drop b, terminal := tm }) := by
  induction b with
  | zero =>
    intro ls tm buf h
    simp [fileScanLoop]
  | succ n ih =>
    intro ls tm buf h
    cases ls with
    | nil =>
      have hbuf : buf ≠ [] := by
        rcases h with h | h
        · exact h
        · exact absurd rfl h
      simp only [fileScanLoop, bufioScan, if_neg hbuf]
      have := ih [] tm buf (Or.inl hbuf)
      simpa using this
    | cons l rest =>
      simp only [fileScanLoop, bufioScan]
      have := ih rest tm (buf ++ [{ Key := l }]) (Or.inl (by simp))
      rw [this]
      simp

theorem fileScanLoop_empty (tm : Option String) (m : Nat) :
    fileScanLoop { lines := [], terminal := tm } [] (m + 1) =
      (false, [], { lines := [], terminal := tm }) := by
  simp [fileScanLoop, bufioScan]

/-- Claim C5 counterexample: a file scanner whose underlying read terminates
with the I/O error "read error" returns false from `Scan` — but `Err()`
does not return that terminal error (it is always nil), so the claim as
stated fails at this input. -/
theorem fileScanner_err_counterexample :
    (FileScanner.Scan { buf := [], reader := { lines := [], terminal := some "read error" } } 1000).1
      = false ∧
    ¬ (FileScanner.Err
        (FileScanner.Scan { buf := [], reader := { lines := [], terminal := some "read error" } } 1000).2
      = some "read error") := by
  constructor
  · rfl
  · simp [FileScanner.Err]

/-- Claim C5 (amended): when the underlying read terminates with a file I/O
error, `Scan` returns false exactly as it does on normal exhaustion, and
`Err()` returns none rather than the terminal error — a false return
cannot be disambiguated from exhaustion through `Err()`. -/
theorem fileScanner_terminal_error_err_none (s : FileScanner) (count : Nat) (e : String)
    (hterm : s.reader.terminal = some e) (hl : s.reader.lines = []) (hc : 1 ≤ count) :
    (s.Scan count).1 = false ∧ FileScanner.Err (s.Scan count).2 = none := by
  obtain ⟨m, rfl⟩ : ∃ m, count = m + 1 := ⟨count - 1, by omega⟩
  obtain ⟨buf0, ls, tm⟩ := s
  have hls : ls = [] := hl
  subst hls
  unfold FileScanner.Scan
  rw [fileScanLoop_empty tm m]
  exact ⟨rfl, rfl⟩

theorem fileScanner_terminal_error_err_none_witness :
    (FileScanner.Scan { buf := [], reader := { lines := [], terminal := some "disk failure" } } 3).1
      = false ∧
    FileScanner.Err
      (FileScanner.Scan { buf := [], reader := { lines := [], terminal := some "disk failure" } } 3).2
      = none :=
  fileScanner_terminal_error_err_none _ 3 "disk failure" rfl rfl (by decide)

/-- Claim C6: while keys remain, every `Scan` call returns true with a batch
of exactly `min b remaining` keys (the first `b` lines, so a short final
partial batch is still a valid batch) and advances the reader by `b`
lines; once the read is fully empty, `Scan` returns false with no error. -/
theorem fileScanner_scan_batches (s : FileScanner) (b : Nat) :
    (s.reader.lines ≠ [] →
      (s.Scan b).1 = true ∧
      (s.Scan b).2.buf = (s.reader.lines.take b).map (fun l => { Key := l }) ∧
      (s.Scan b).2.buf.length = min b s.reader.lines.length ∧
      (s.Scan b).2.reader = { lines := s.reader.lines.drop b, terminal := s.reader.terminal }) ∧
    (s.reader.lines = [] → 1 ≤ b →
      (s.Scan b).1 = false ∧ (s.Scan b).2.buf = [] ∧ FileScanner.Err (s.Scan b).2 = none) := by
  obtain ⟨buf0, ls, tm⟩ := s
  constructor
  · intro hne
    have hne2 : ls ≠ [] := hne
    have h := fileScanLoop_go b ls tm [] (Or.inr hne2)
    simp only [FileScanner.Scan]
    rw [h]
    refine ⟨rfl, by simp, ?_, rfl⟩
    simp [List.length_take]
  · intro hl hb
    have hls : ls = [] := hl
    subst hls
    obtain ⟨m, rfl⟩ : ∃ m, b = m + 1 := ⟨b - 1, by omega⟩
    simp only [FileScanner.Scan]
    rw [fileScanLoop_empty tm m]
    exact ⟨rfl, rfl, rfl⟩

/-- The 2,500-line key file of the spec scenario. -/
def fileScanner2500 : FileScanner :=
  { buf := [], reader := { lines := List.replicate 2500 "k", terminal := none } }

/-- State after the first `Scan 1000` of the scenario. -/
def fsAfter1 : FileScanner := (fileScanner2500.Scan 1000).2

/-- State after the second `Scan 1000` of the scenario. -/
def fsAfter2 : FileScanner := (fsAfter1.Scan 1000).2

/-- State after the third `Scan 1000` of the scenario. -/
def fsAfter3 : FileScanner := (fsAfter2.Scan 1000).2

theorem fileScanner_scan_batches_witness :
    (fileScanner2500.Scan 1000).1 = true ∧ fsAfter1.buf.length = 1000 ∧
    (fsAfter1.Scan 1000).1 = true ∧ fsAfter2.buf.length = 1000 ∧
    (fsAfter2.Scan 1000).1 = true ∧ fsAfter3.buf.length = 500 ∧
    (fsAfter3.Scan 1000).1 = false ∧ FileScanner.Err (fsAfter3.Scan 1000).2 = none := by
  have hrep : ∀ n : Nat, n ≠ 0 → (List.replicate n "k" : List String) ≠ [] := by
    intro n hn
    rw [Ne, List.replicate_eq_nil_iff]
    exact hn
  have h1 := (fileScanner_scan_batches fileScanner2500 1000).1
    (show List.replicate 2500 "k" ≠ [] from hrep 2500 (by norm_num))
  have hl1 : fsAfter1.reader.lines = List.replicate 1500 "k" := by
    simp only [fsAfter1]
    rw [h1.2.2.2]
    show (List.replicate 2500 "k").drop 1000 = _
    rw [List.drop_replicate]
  have h2 := (fileScanner_scan_batches fsAfter1 1000).1
    (by rw [hl1]; exact hrep 1500 (by norm_num))
  have hl2 : fsAfter2.reader.lines = List.replicate 500 "k" := by
    simp only [fsAfter2]
    rw [h2.2.2.2, hl1]
    show (List.replicate 1500 "k").drop 1000 = _
    rw [List.drop_replicate]
  have h3 := (fileScanner_scan_batches fsAfter2 1000).1
    (by rw [hl2]; exact hrep 500 (by norm_num))
  have hl3 : fsAfter3.reader.lines = [] := by
    simp only [fsAfter3]
    rw [h3.2.2.2, hl2]
    show (List.replicate 500 "k").drop 1000 = _
    rw [List.drop_replicate]
    rfl
  have h4 := (fileScanner_scan_batches fsAfter3 1000).2 hl3 (by norm_num)
  refine ⟨h1.1, ?_, h2.1, ?_, h3.1, ?_, h4.1, h4.2.2⟩
  · simp only [fsAfter1]
    rw [h1.2.2.1]
    show min 1000 (List.replicate 2500 "k").length = 1000
    rw [List.length_replicate]
    omega
  · simp only [fsAfter2]
    rw [h2.2.2.1, hl1]
    rw [List.length_replicate]
    omega
  · simp only [fsAfter3]
    rw [h3.2.2.1, hl2]
    rw [List.length_replicate]
    omega

theorem bucketScanner_scan_params
    (client : ListObjectsInput → Except S3Response (List S3Object))
    (s : BucketScanner) (count : Nat) :
    (BucketScanner.Scan client s count).2.2 = listParamsOf s count := by
  unfold BucketScanner.Scan
  cases hcl : client (listParamsOf s count) with
  | error e => simp [hcl]
  | ok contents =>
    by_cases hlen : contents.length < 1
    · simp [hcl, hlen]
    · simp [hcl, hlen]

/-- Claim C7: every `Scan` passes as continuation `Marker` the last key of
the previous batch (`none` on the first call, when the buffer is empty);
an empty listing page yields false with the stored error unchanged (so
`Err()` stays none on a clean run); and a listing failure stores the error
and yields false. -/
theorem bucketScanner_marker_and_errors
    (client : ListObjectsInput → Except S3Response (List S3Object))
    (s : BucketScanner) (count : Nat) :
    (BucketScanner.Scan client s count).2.2.Marker
        = Option.map (fun o => o.Key) s.buf.getLast? ∧
    (s.buf = [] → (BucketScanner.Scan client s count).2.2.Marker = none) ∧
    (client (listParamsOf s count) = Except.ok [] →
      (BucketScanner.Scan client s count).1 = false ∧
      (BucketScanner.Scan client s count).2.1.err = s.err) ∧
    (∀ e, client (listParamsOf s count) = Except.error e →
      (BucketScanner.Scan client s count).1 = false ∧
      (BucketScanner.Scan client s count).2.1.err = some e) := by
  refine ⟨?_, ?_, ?_, ?_⟩
  · rw [bucketScanner_scan_params]
    rfl
  · intro hb
    rw [bucketScanner_scan_params, listParamsOf, hb]
    rfl
  · intro hok
    unfold BucketScanner.Scan
    simp [hok]
  · intro e herr
    unfold BucketScanner.Scan
    simp [herr]

/-- A mocked remote store for the spec scenario: pages of 3, 3, 0 objects
for the first, second and third listing call. -/
def mockListClient : ListObjectsInput → Except S3Response (List S3Object) :=
  fun inp =>
    if inp.Marker = none then
      Except.ok [{ Key := "k1" }, { Key := "k2" }, { Key := "k3" }]
    else if inp.Marker = some "k3" then
      Except.ok [{ Key := "k4" }, { Key := "k5" }, { Key := "k6" }]
    else
      Except.ok []

theorem bucketScanner_marker_and_errors_witness :
    (BucketScanner.Scan mockListClient
      { Bucket := "b", Pfx := "p", err := none,
        buf := [{ Key := "k1" }, { Key := "k2" }, { Key := "k3" }] } 1000).2.2.Marker
      = some "k3" ∧
    (BucketScanner.Scan mockListClient
      { Bucket := "b", Pfx := "p", err := none,
        buf := [{ Key := "k4" }, { Key := "k5" }, { Key := "k6" }] } 1000).1 = false ∧
    (BucketScanner.Scan mockListClient
      { Bucket := "b", Pfx := "p", err := none,
        buf := [{ Key := "k4" }, { Key := "k5" }, { Key := "k6" }] } 1000).2.1.err = none := by
  have h1 := (bucketScanner_marker_and_errors mockListClient
    { Bucket := "b", Pfx := "p", err := none,
      buf := [{ Key := "k1" }, { Key := "k2" }, { Key := "k3" }] } 1000).1
  have h2 := (bucketScanner_marker_and_errors mockListClient
    { Bucket := "b", Pfx := "p", err := none,
      buf := [{ Key := "k4" }, { Key := "k5" }, { Key := "k6" }] } 1000).2.2.1 (by rfl)
  exact ⟨by rw [h1]; rfl, h2.1, h2.2⟩
